import Mathlib

/-!
Verification of the intelligent-document-processing pipeline
(`run_idp_on_text` / `run_idp_on_image` Lambdas and the
`extract_attributes_llm` model helpers) against its natural-language
specification.

The Python sources are shallowly embedded: Python dicts become ordered
association lists (Python dicts preserve insertion order), values parsed
from LLM output become the inductive `PyVal`, fallible code returns
`Except`, and external effects (the Bedrock `converse` endpoint, the
tokenizer, the filesystem) are passed in as explicit oracle functions.
-/

/-- A Python dict key as produced by parsing LLM answers
(`ast.literal_eval` only yields hashable keys: strings, ints, booleans,
`None`).  Key equality is structural; Python's cross-type numeric
equality (`True == 1`) is not modelled — no claim involves such keys. -/
inductive PyKey where
  | str (s : String)
  | int (n : Int)
  | bool (b : Bool)
  | pynone
deriving DecidableEq, Repr

/-- A Python value as produced by `ast.literal_eval` on LLM output:
strings, integers, booleans, `None`, lists and (insertion-ordered)
dicts. -/
inductive PyVal where
  | str (s : String)
  | int (n : Int)
  | bool (b : Bool)
  | pynone
  | list (xs : List PyVal)
  | dict (kvs : List (PyKey × PyVal))

/-- Lookup in an insertion-ordered dict (Python `key in d` / `d[key]`). -/
def lookupKey (kvs : List (PyKey × PyVal)) (k : PyKey) : Option PyVal :=
  match kvs with
  | [] => none
  | (k', v) :: rest => if k' = k then some v else lookupKey rest k

/-- Python `d[key] = v`: update in place when the key exists (keeping its
position, as Python dicts do), otherwise append at the end. -/
def setKey (kvs : List (PyKey × PyVal)) (k : PyKey) (v : PyVal) :
    List (PyKey × PyVal) :=
  match kvs with
  | [] => [(k, v)]
  | (k', v') :: rest =>
      if k' = k then (k', v) :: rest else (k', v') :: setKey rest k v

/-- Python `isinstance(value, list)`. -/
def PyVal.isList : PyVal → Bool
  | .list _ => true
  | _ => false

/-- Python `isinstance(value, dict)`. -/
def PyVal.isDict : PyVal → Bool
  | .dict _ => true
  | _ => false

/-- One `for key, value in response.items()` step of
`combine_json_responses` (src/lambda/run_idp_on_image/helpers.py,
lines 93-107): the if/elif ladder on `key not in combined_json` and
`isinstance(..., list)` of the new and the accumulated value. -/
def combineStep (acc : List (PyKey × PyVal)) :
    PyKey × PyVal → List (PyKey × PyVal)
  | (key, value) =>
  match lookupKey acc key with
  | none => acc ++ [(key, value)]
  | some cur =>
      match cur, value with
      | .list xs, .list ys => setKey acc key (.list (xs ++ ys))
      | .list xs, v => setKey acc key (.list (xs ++ [v]))
      | c, .list ys => setKey acc key (.list (c :: ys))
      | c, v => setKey acc key (.list [c, v])

/-- The function `combine_json_responses` (src/lambda/run_idp_on_image/helpers.py,
lines 78-108): left fold over the chunk responses, skipping any response
that is not a dict (`if not isinstance(response, dict): continue`), and
folding each dict's items through the if/elif ladder.  The Python code
mutates `combined_json[key]` with `.extend` / `.append`; the functional
update computes the same resulting value. -/
def combine_json_responses (responses : List PyVal) : List (PyKey × PyVal) :=
  responses.foldl
    (fun acc response =>
      match response with
      | .dict kvs => kvs.foldl combineStep acc
      | _ => acc)
    []

/-- The per-key merge rule stated by the spec: assign on a fresh key,
concatenate two lists, promote two non-lists to a pair-list, append a
non-list onto a list, prepend a non-list in front of a list. -/
def mergeRule (cur : Option PyVal) (v : PyVal) : PyVal :=
  match cur with
  | none => v
  | some c =>
      match c, v with
      | .list xs, .list ys => .list (xs ++ ys)
      | .list xs, v => .list (xs ++ [v])
      | c, .list ys => .list (c :: ys)
      | c, v => .list [c, v]

lemma lookupKey_setKey_self (kvs : List (PyKey × PyVal)) (k : PyKey)
    (v : PyVal) : lookupKey (setKey kvs k v) k = some v := by
  induction kvs with
  | nil => simp [setKey, lookupKey]
  | cons hd tl ih =>
      obtain ⟨k', v'⟩ := hd
      by_cases h : k' = k
      · simp [setKey, lookupKey, h]
      · simp [setKey, lookupKey, h, ih]

lemma lookupKey_setKey_other (kvs : List (PyKey × PyVal)) (k k' : PyKey)
    (v : PyVal) (h : k' ≠ k) :
    lookupKey (setKey kvs k v) k' = lookupKey kvs k' := by
  induction kvs with
  | nil =>
      simp [setKey, lookupKey]
      intro h'
      exact absurd h'.symm h
  | cons hd tl ih =>
      obtain ⟨k₀, v₀⟩ := hd
      by_cases h₀ : k₀ = k
      · subst h₀
        have : ¬ (k₀ = k') := fun hh => h (hh ▸ rfl)
        simp [setKey, lookupKey, this]
      · by_cases h₁ : k₀ = k'
        · subst h₁
          simp [setKey, lookupKey, h₀, h]
        · simp [setKey, lookupKey, h₀, h₁, ih]

lemma lookupKey_append_single_self (kvs : List (PyKey × PyVal)) (k : PyKey)
    (v : PyVal) (h : lookupKey kvs k = none) :
    lookupKey (kvs ++ [(k, v)]) k = some v := by
  induction kvs with
  | nil => simp [lookupKey]
  | cons hd tl ih =>
      obtain ⟨k', v'⟩ := hd
      by_cases h' : k' = k
      · simp [lookupKey, h'] at h
      · simp only [lookupKey, h', if_false] at h ⊢
        exact ih h

lemma lookupKey_append_single_other (kvs : List (PyKey × PyVal))
    (k k' : PyKey) (v : PyVal) (h : k' ≠ k) :
    lookupKey (kvs ++ [(k, v)]) k' = lookupKey kvs k' := by
  induction kvs with
  | nil =>
      simp [lookupKey]
      intro h'
      exact absurd h'.symm h
  | cons hd tl ih =>
      obtain ⟨k₀, v₀⟩ := hd
      by_cases h₀ : k₀ = k'
      · simp [lookupKey, h₀]
      · simp [lookupKey, h₀, ih]

/-- Lemma: `combineStep` realizes the spec's per-key merge rule at the touched
key... -/
lemma combineStep_lookup_self (acc : List (PyKey × PyVal))
    (k : PyKey) (v : PyVal) :
    lookupKey (combineStep acc (k, v)) k = some (mergeRule (lookupKey acc k) v) := by
  cases h : lookupKey acc k with
  | none =>
      simp only [combineStep, mergeRule, h]
      exact lookupKey_append_single_self acc k v h
  | some c =>
      simp only [combineStep, mergeRule, h]
      cases c <;> cases v <;>
        simp [lookupKey_setKey_self]

/-- Lemma: `combineStep` leaves every other key untouched. -/
lemma combineStep_lookup_other (acc : List (PyKey × PyVal))
    (k k' : PyKey) (v : PyVal) (h : k' ≠ k) :
    lookupKey (combineStep acc (k, v)) k' = lookupKey acc k' := by
  cases hc : lookupKey acc k with
  | none =>
      simp only [combineStep, hc]
      exact lookupKey_append_single_other acc k k' v h
  | some c =>
      simp only [combineStep, hc]
      cases c <;> cases v <;>
        simp [lookupKey_setKey_other _ _ _ _ h]

/-! ### A character-level string library

Lean core's `String` functions (`splitOn`, `replace`, `trim`, `toLower`,
`endsWith`, `intercalate`) are compiled against native code and do not
reduce inside the kernel, so the embedding re-implements the Python
string operations it needs structurally over `String.data`; each
definition states which Python operation it models. -/

/-- Does `p` occur at the head of `s`? -/
def isPrefixChars : List Char → List Char → Bool
  | [], _ => true
  | _ :: _, [] => false
  | p :: ps, c :: cs => p == c && isPrefixChars ps cs

/-- Python `s.split(sep)` for a non-empty separator: split at every
non-overlapping occurrence, left to right.  `cur` holds the current
piece reversed.  The fuel argument only realizes structural
termination: every step consumes at least one character, and callers
pass the input length plus one. -/
def splitOnAuxC (c0 : Char) (sep0 : List Char) :
    Nat → List Char → List Char → List (List Char)
  | 0, s, cur => [cur.reverse ++ s]
  | Nat.succ fuel, s, cur =>
      match s with
      | [] => [cur.reverse]
      | c :: rest =>
          if isPrefixChars (c0 :: sep0) (c :: rest) then
            cur.reverse ::
              splitOnAuxC c0 sep0 fuel ((c :: rest).drop (sep0.length + 1)) []
          else splitOnAuxC c0 sep0 fuel rest (c :: cur)

/-- Python `s.split(sep)`.  (`sep` is never empty in the embedded code;
Python raises on an empty separator, modelled as the undivided string.) -/
def strSplitOn (s sep : String) : List String :=
  match sep.data with
  | [] => [s]
  | c0 :: sep0 => (splitOnAuxC c0 sep0 (s.data.length + 1) s.data []).map String.mk

/-- The whitespace set of Python's `str.strip()`. -/
def isPyWs (c : Char) : Bool :=
  c == ' ' || c == '\t' || c == '\n' || c == '\r' || c == '\x0b' || c == '\x0c'

/-- Python `s.strip()`. -/
def strTrim (s : String) : String :=
  String.mk (((s.data.dropWhile isPyWs).reverse.dropWhile isPyWs).reverse)

/-- Python `s.lower()` (ASCII; every embedded use is on ASCII file
names and type tags). -/
def strToLower (s : String) : String :=
  String.mk (s.data.map Char.toLower)

/-- Python `s.startswith(p)`. -/
def strStartsWith (s p : String) : Bool :=
  isPrefixChars p.data s.data

/-- Python `s.endswith(p)`. -/
def strEndsWith (s p : String) : Bool :=
  isPrefixChars p.data.reverse s.data.reverse

/-- Python `sep.join(parts)`. -/
def strIntercalate (sep : String) : List String → String
  | [] => ""
  | [x] => x
  | x :: xs => x ++ sep ++ strIntercalate sep xs

/-- Python `s.replace(pat, rep)` (all occurrences, left to right): for a
non-empty pattern this is exactly `rep.join(s.split(pat))`. -/
def strReplace (s pat rep : String) : String :=
  strIntercalate rep (strSplitOn s pat)

/-! ### Response parser (assets/lambda/backend/extract_attributes_llm/model/parser.py) -/

/-- Python `text.split("<json>", 1)[1].rsplit("</json>", 1)[0]` with the
surrounding `try/except`: if `"<json>"` does not occur, indexing `[1]`
raises and the handler falls back to `text.strip()`; if it does occur,
everything after the first `"<json>"` is kept and, when `"</json>"`
occurs in that remainder, everything from its last occurrence on is
dropped (`rsplit` with no occurrence returns the whole string, raising
nothing). -/
def extractJson (text : String) : String :=
  match strSplitOn text "<json>" with
  | [] => strTrim text
  | [_] => strTrim text
  | _ :: rest =>
      let after := strIntercalate "<json>" rest
      let parts := strSplitOn after "</json>"
      if parts.length ≤ 1 then strTrim after
      else strTrim (strIntercalate "</json>" parts.dropLast)

/-- Python `re.sub(r"\n\n+", ",", text)`: each maximal run of two or more
newlines is replaced by a single comma (the regex `+` is greedy, so the
whole run is consumed). -/
def subBlankS : Bool → List Char → List Char
  | _, [] => []
  | true, '\n' :: rest => subBlankS true rest
  | true, c :: rest => c :: subBlankS false rest
  | false, '\n' :: '\n' :: rest => ',' :: subBlankS true rest
  | false, c :: rest => c :: subBlankS false rest

/-- Entry point of the blank-line collapse (state `true` means the
current newline run has already been collapsed and further newlines are
being consumed). -/
def subBlank (cs : List Char) : List Char := subBlankS false cs

/-- parser.py lines 23-26: prepend `{` unless the text starts with `{`
or `[`; then append `}` unless the (possibly prepended) text ends with
`}` or `]`. -/
def braceWrap (text : String) : String :=
  let t := if ¬ strStartsWith text "\x7b" ∧ ¬ strStartsWith text "[" then
    "\x7b" ++ text else text
  if ¬ strEndsWith t "\x7d" ∧ ¬ strEndsWith t "]" then t ++ "\x7d" else t

/-- Whitespace skipping inside `ast.literal_eval` input. -/
def skipWs (cs : List Char) : List Char :=
  cs.dropWhile (fun c => c == ' ' || c == '\n' || c == '\t' || c == '\r')

/-- Python string-literal escape resolution for the escapes that occur
in LLM output; an unrecognized escape keeps the backslash, as Python
does. -/
def escChar (e : Char) : String :=
  if e = 'n' then "\n"
  else if e = 't' then "\t"
  else if e = 'r' then "\r"
  else if e = '\\' then "\\"
  else if e = '\'' then "'"
  else if e = '"' then "\""
  else String.singleton '\\' ++ String.singleton e

/-- Body of a quoted string literal, up to the closing quote `q` (which
is `'` or `"`, never a backslash, so the escape case can be matched
first). -/
def parseStrBody (q : Char) : List Char → Option (String × List Char)
  | [] => none
  | '\\' :: e :: rest =>
      (parseStrBody q rest).map (fun p => (escChar e ++ p.1, p.2))
  | c :: rest =>
      if c = q then some ("", rest)
      else (parseStrBody q rest).map (fun p => (String.singleton c ++ p.1, p.2))

def digitsToNat (ds : List Char) : Nat :=
  ds.foldl (fun n c => 10 * n + (c.toNat - '0'.toNat)) 0

/-- Python dict keys must be hashable: a list or dict key raises
`TypeError` during evaluation. -/
def toKey : PyVal → Except String PyKey
  | .str s => .ok (.str s)
  | .int n => .ok (.int n)
  | .bool b => .ok (.bool b)
  | .pynone => .ok .pynone
  | _ => .error "unhashable type"

/-- Parsing mode: a value, the items of a dict display (with the pairs
accumulated so far), or the items of a list display. -/
inductive PMode where
  | val
  | dictItems (acc : List (PyKey × PyVal))
  | listItems (acc : List PyVal)

/-- A recursive-descent model of `ast.literal_eval` restricted to the
literal forms LLM answers use: single- and double-quoted strings,
decimal integers (optionally signed), `True`/`False`/`None`, lists and
dicts, with arbitrary interleaved whitespace and trailing commas
allowed — and, crucially, *bare names rejected* (`ValueError: malformed
node or string`), exactly as `ast.literal_eval` rejects them.  Floats,
tuples, sets, bytes and numeric underscores are not modelled; no claim
exercises them.  In `dictItems` mode duplicate keys overwrite in place
(Python dict-display semantics).  The fuel argument only realizes
termination of the embedding: every recursive call both consumes input
and decreases fuel, and callers pass more fuel than the input can
consume. -/
def parseRun : Nat → PMode → List Char → Except String (PyVal × List Char)
  | 0, _, _ => .error "fuel exhausted"
  | Nat.succ fuel, .val, cs =>
      match skipWs cs with
      | [] => .error "malformed node or string"
      | c :: rest =>
          if c = '{' then parseRun fuel (.dictItems []) rest
          else if c = '[' then parseRun fuel (.listItems []) rest
          else if c = '\'' ∨ c = '"' then
            match parseStrBody c rest with
            | some (s, r) => .ok (.str s, r)
            | none => .error "unterminated string literal"
          else if c = '-' ∨ c = '+' then
            let cs2 := skipWs rest
            let p := cs2.span Char.isDigit
            if p.1 = [] then .error "malformed node or string"
            else .ok (.int (if c = '-' then -(digitsToNat p.1 : Int)
                            else (digitsToNat p.1 : Int)), p.2)
          else if c.isDigit then
            let p := (c :: rest).span Char.isDigit
            .ok (.int (digitsToNat p.1 : Int), p.2)
          else
            let w := (c :: rest).span (fun ch => ch.isAlphanum || ch = '_')
            if w.1 = "True".data then .ok (.bool true, w.2)
            else if w.1 = "False".data then .ok (.bool false, w.2)
            else if w.1 = "None".data then .ok (.pynone, w.2)
            else .error "malformed node or string"
  | Nat.succ fuel, .dictItems acc, cs =>
      match skipWs cs with
      | '}' :: r => .ok (.dict acc, r)
      | cs' =>
          match parseRun fuel .val cs' with
          | .error e => .error e
          | .ok (kv, r1) =>
              match toKey kv with
              | .error e => .error e
              | .ok key =>
                  match skipWs r1 with
                  | ':' :: r2 =>
                      match parseRun fuel .val r2 with
                      | .error e => .error e
                      | .ok (v, r3) =>
                          match skipWs r3 with
                          | ',' :: r4 =>
                              parseRun fuel (.dictItems (setKey acc key v)) r4
                          | '}' :: r4 => .ok (.dict (setKey acc key v), r4)
                          | _ => .error "malformed node or string"
                  | _ => .error "malformed node or string"
  | Nat.succ fuel, .listItems acc, cs =>
      match skipWs cs with
      | ']' :: r => .ok (.list acc, r)
      | cs' =>
          match parseRun fuel .val cs' with
          | .error e => .error e
          | .ok (v, r1) =>
              match skipWs r1 with
              | ',' :: r2 => parseRun fuel (.listItems (acc ++ [v])) r2
              | ']' :: r2 => .ok (.list (acc ++ [v]), r2)
              | _ => .error "malformed node or string"

/-- Python `ast.literal_eval`: parse one literal and require only whitespace to
remain. -/
def pyLiteralEval (s : String) : Except String PyVal :=
  match parseRun (2 * s.data.length + 8) .val s.data with
  | .error e => .error e
  | .ok (v, rest) =>
      if skipWs rest = [] then .ok v else .error "malformed node or string"

/-- The function `parse_json_string` (parser.py lines 12-31): extract the `<json>`
section (or fall back to the trimmed text), collapse blank-line runs to
a comma, wrap in braces when needed, collapse doubled braces (`}}` then
`{{`, each as a single left-to-right `str.replace` pass), and evaluate
with the permissive literal evaluator. -/
def parse_json_string (text : String) : Except String PyVal :=
  let t := extractJson text
  let t := String.mk (subBlank t.data)
  let t := braceWrap t
  let t := strReplace (strReplace t "\x7d\x7d" "\x7d") "\x7b\x7b" "\x7b"
  pyLiteralEval t

/-! ### `parse_bedrock_response` (parser.py lines 34-43) -/

/-- The ways `parse_bedrock_response` can raise: the explicit
`ValueError` about text-block count, an `IndexError` (`replies[0]` on an
empty list) or a `KeyError` (`reply["text"]` on a block without a
`text` field). -/
inductive PBErr where
  | multipleTextBlocks (n : Nat)
  | indexError
  | keyError
deriving DecidableEq, Repr

/-- A content block of the provider response, reduced to its optional
`text` field (image or reasoning blocks carry none). -/
abbrev ContentBlock := Option String

/-- The function `parse_bedrock_response`: with two or more content blocks, filter to
the text-bearing ones and demand exactly one, else raise the
`Model has returned {n} text blocks` error; then return
`replies[0]["text"].strip()`. -/
def parse_bedrock_response (blocks : List ContentBlock) : Except PBErr String :=
  if 1 < blocks.length then
    let replies := blocks.filter (fun b => b.isSome)
    if replies.length ≠ 1 then .error (.multipleTextBlocks replies.length)
    else
      match replies with
      | some t :: _ => .ok (strTrim t)
      | none :: _ => .error .keyError
      | [] => .error .indexError
  else
    match blocks with
    | some t :: _ => .ok (strTrim t)
    | none :: _ => .error .keyError
    | [] => .error .indexError

/-! ### `create_human_message_with_imgs`
(src/lambda/run_idp_on_image/helpers.py, lines 111-152) -/

/-- Raw image bytes, kept opaque. -/
abbrev Bytes := List Nat

/-- The exceptions this path can raise: the descriptive `ValueError`s,
and Python's `UnboundLocalError` (a `NameError`) when a local variable is
read before any branch assigned it. -/
inductive PyExn where
  | valueError (msg : String)
  | unboundLocal (name : String)
deriving DecidableEq, Repr

/-- A content block of a conversation message. -/
inductive MsgBlock where
  | text (s : String)
  | image (format : String) (bytes : Bytes)
deriving DecidableEq, Repr

structure Message where
  role : String
  content : List MsgBlock
deriving DecidableEq, Repr

/-- helpers.py lines 134-151, shared by every branch that did assign
`bytes_strs` and `format`: truncate to `max_pages`, raise the
descriptive `ValueError` when no image remains, else emit one image
block per page followed by the text block. -/
def buildWithImages (bytes_strs : List Bytes) (format : String)
    (text : String) (max_pages : Nat) : Except PyExn Message :=
  let bs := bytes_strs.take max_pages
  if bs = [] then
    .error (.valueError
      "No images found in the file. Consider uploading a different file or adjust cutoff settings.")
  else .ok ⟨"user", bs.map (fun b => .image format b) ++ [.text text]⟩

/-- The extensions accepted by `create_human_message_with_imgs`'s
if/elif ladder (lowercased name ends in .pdf, .jpeg, .jpg or .png). -/
def supportedImageExt (f : String) : Bool :=
  strEndsWith (strToLower f) ".pdf" || strEndsWith (strToLower f) ".jpeg" ||
    strEndsWith (strToLower f) ".jpg" || strEndsWith (strToLower f) ".png"

/-- The function `create_human_message_with_imgs`: the PDF→page-images conversion and
the image-file read are passed in as oracles (`pdfImages`, `readFile`).
Python's `if file:` is false for both `None` and `""`.  The if/elif
ladder has no else branch: for a truthy file whose lowercased name ends
in none of the four extensions, neither `bytes_strs` nor `format` is
ever assigned, and line 134 (`bytes_strs = bytes_strs[:max_pages]`)
raises `UnboundLocalError` — not the descriptive unsupported-format
`ValueError` that the generator variant raises. -/
def create_human_message_with_imgs (pdfImages : String → List Bytes)
    (readFile : String → Bytes) (text : String) (file : Option String)
    (max_pages : Nat) : Except PyExn Message :=
  match file with
  | none => .ok ⟨"user", [.text text]⟩
  | some f =>
      if f = "" then .ok ⟨"user", [.text text]⟩
      else if strEndsWith (strToLower f) ".pdf" then
        buildWithImages (pdfImages f) "jpeg" text max_pages
      else if strEndsWith (strToLower f) ".jpeg" ||
          strEndsWith (strToLower f) ".jpg" ||
          strEndsWith (strToLower f) ".png" then
        buildWithImages [readFile f]
          (if strEndsWith (strToLower f) ".png" then "png" else "jpeg")
          text max_pages
      else .error (.unboundLocal "bytes_strs")

/-! ### LLM client retry policy
(assets/lambda/backend/extract_attributes_llm/model/bedrock.py) -/

/-- Content blocks of `response["output"]["message"]["content"]`,
reduced to the optional `text` field. -/
abbrev BRResp := List (Option String)

/-- The kinds of exception one `bedrock_client.converse` call can raise:
`ThrottlingException` (a `ClientError` subclass), any other
`ClientError` (e.g. a validation failure), or a non-`ClientError`
failure (e.g. a read timeout). -/
inductive BRFail where
  | throttling
  | otherClient
  | nonClient
deriving DecidableEq, Repr

/-- What escapes `generate_conversation`: the permanent
`Exception("Failed after 5 retries due to throttling")` — a plain
`Exception`, not a `ClientError` — or a re-raised converse failure. -/
inductive GCErr where
  | permanentThrottle
  | raised (e : BRFail)
deriving DecidableEq, Repr

/-- Which escaped errors the `except ClientError` handler of
`call_bedrock` (bedrock.py lines 234-238) catches. -/
def isClientError : GCErr → Bool
  | .raised .throttling => true
  | .raised .otherClient => true
  | _ => false

/-- The retry `while` loop of `generate_conversation` (bedrock.py lines
112-142), run over the remaining retry indices (`retry_count` values).
`att k` is the outcome of the converse call on attempt `k` (attempt 0 is
the initial call); `jit k` is the value `0.8 + random.random() * 0.4`
drawn before retry `k`.  Each iteration first sleeps
`2 ** retry_count * jitter` seconds (recorded in the returned trace),
then retries: success breaks the loop, throttling continues — and when
the schedule is exhausted (`retry_count == max_retries` still
throttling) the permanent error is raised — while any other exception
re-raises. -/
def genConvRetries (att : Nat → Except BRFail BRResp) (jit : Nat → ℚ) :
    List Nat → List ℚ × Except GCErr BRResp
  | [] => ([], .error .permanentThrottle)
  | rc :: rest =>
      let d := (2 ^ rc : ℚ) * jit rc
      match att rc with
      | .ok r => ([d], .ok r)
      | .error .throttling =>
          let p := genConvRetries att jit rest
          (d :: p.1, p.2)
      | .error e => ([d], .error (.raised e))

/-- The function `generate_conversation` (bedrock.py lines 49-153) restricted to its
error-handling skeleton: the initial converse call is guarded only by
`except ThrottlingException`; any other failure of the initial call
propagates; a throttled initial call enters the retry loop with
`max_retries = 5` and `retry_count` running 1..5.  The first component
is the trace of back-off sleeps performed. -/
def generate_conversation (att : Nat → Except BRFail BRResp)
    (jit : Nat → ℚ) : List ℚ × Except GCErr BRResp :=
  match att 0 with
  | .ok r => ([], .ok r)
  | .error .throttling => genConvRetries att jit [1, 2, 3, 4, 5]
  | .error e => ([], .error (.raised e))

/-- bedrock.py lines 223-230: take `content[0]["text"]` when block 0 has
a `text` field, else `content[1]["text"]`; a missing block or missing
field raises `KeyError`/`IndexError`, which the handler converts to the
`("", [])` return. -/
def extractFirstText (content : BRResp) : Option String :=
  match content with
  | some t :: _ => some t
  | none :: some t :: _ => some t
  | _ => none

/-- The function `call_bedrock` (bedrock.py lines 156-238) reduced to its control
flow: run `generate_conversation`; on success return the selected text
(or `""` when no text block is found); `except ClientError` returns
`("", [])` — swallowing non-throttling client errors — while
non-`ClientError` exceptions (including the permanent throttling error)
propagate.  The accumulated messages list is not modelled; the string
component is the returned `output_message` text. -/
def call_bedrock (att : Nat → Except BRFail BRResp) (jit : Nat → ℚ) :
    List ℚ × Except GCErr String :=
  let p := generate_conversation att jit
  match p.2 with
  | .ok r => (p.1, .ok ((extractFirstText r).getD ""))
  | .error e => if isClientError e then (p.1, .ok "") else (p.1, .error e)

/-! ### Chunk processing
(src/lambda/run_idp_on_image/run_idp_on_image.py, lines 124-251) -/

/-- The function `process_chunk` (lines 124-169): `call i` is the outcome of the
`call_bedrock` invocation for chunk `i` — `.ok text` when it returns,
`.error msg` when it raises (e.g. the permanent throttling error).  The
`try/except` around `parse_json_string` converts a parse failure into an
empty dict so the chunk count is maintained. -/
def process_chunk (call : Nat → Except String String) (i : Nat) :
    Except String (PyVal × String) :=
  match call i with
  | .error e => .error e
  | .ok text =>
      .ok (match parse_json_string text with
           | .ok v => v
           | .error _ => .dict [], text)

/-- The sequential branch of `process_chunks` (lines 232-249): a plain
`for` loop with *no* `try/except`, so the first chunk whose processing
raises aborts the whole document. -/
def process_chunks_seq (call : Nat → Except String String) :
    List Nat → Except String (List PyVal × List String)
  | [] => .ok ([], [])
  | i :: is =>
      match process_chunk call i with
      | .error e => .error e
      | .ok (v, t) =>
          match process_chunks_seq call is with
          | .error e => .error e
          | .ok (vs, ts) => .ok (v :: vs, t :: ts)

/-- The body of the parallel collection loop (lines 218-230): futures
are iterated in submission (page-order) index — not completion order —
and each `future.result()` is wrapped in `try/except`, a failing chunk
contributing `({}, "Error: <message>")` in its slot. -/
def collectChunk (call : Nat → Except String String) (i : Nat) :
    PyVal × String :=
  match process_chunk call i with
  | .ok p => p
  | .error e => (.dict [], "Error: " ++ e)

/-- The function `process_chunks` (lines 172-251).  `n` is the number of chunks
(`len(chunk_messages_list)`).  The `ThreadPoolExecutor` is modelled by
the per-chunk outcome oracle `call`: each future's `result()` is the
deterministic outcome of its own chunk, and the collection loop reads
the futures list in submission order, so completion order cannot enter
the result.  The parallel branch never raises; the sequential branch
(taken also when `parallel_processing` is true but `n ≤ 1`) propagates
the first chunk failure. -/
def process_chunks (call : Nat → Except String String) (n : Nat)
    (parallel_processing : Bool) : Except String (List PyVal × List String) :=
  if parallel_processing ∧ 1 < n then
    .ok (((List.range n).map (collectChunk call)).unzip)
  else
    process_chunks_seq call (List.range n)

/-! ### `prepare_and_store_response`
(src/lambda/run_idp_on_image/run_idp_on_image.py, lines 254-311) -/

/-- The function `prepare_and_store_response`, modelled up to JSON serialization and
the `put_object` side effect: the returned association list is the
payload `json.dumps` receives (and which is both stored on S3 and
returned to the caller).  With more than one response the answers are
merged and the raw texts joined under `CHUNK i:` headers; with at most
one response the single response (or `{}` / `""` when empty) is used
as-is. -/
def prepare_and_store_response (all_responses : List PyVal)
    (all_raw_responses : List String) (file_name : String) :
    List (PyKey × PyVal) :=
  let combined_response : PyVal :=
    if 1 < all_responses.length then .dict (combine_json_responses all_responses)
    else (all_responses.head?.getD (.dict []))
  let raw_response : String :=
    if 1 < all_responses.length then
      strIntercalate "\n\n"
        (all_raw_responses.enum.map
          (fun p => "CHUNK " ++ toString (p.1 + 1) ++ ":\n" ++ p.2))
    else all_raw_responses.head?.getD ""
  [(.str "answer", combined_response),
   (.str "raw_answer", .str raw_response),
   (.str "file_key", .str file_name),
   (.str "original_file_name", .str file_name),
   (.str "chunks_processed", .int (all_responses.length : Int))]

/-! ### Attribute rendering and prompt filling
(src/lambda/run_idp_on_text/run_idp_on_text.py lines 88-93 and 123-141;
src/lambda/run_idp_on_image/run_idp_on_image.py lines 330-353 with
src/lambda/run_idp_on_image/prompter.py lines 131-151) -/

/-- One attribute specification from the request body: a dict with
`name`, `description` and an optional `type` entry. -/
structure AttributeSpec where
  name : String
  description : String
  type? : Option String
deriving DecidableEq, Repr

/-- The accumulating `for i in range(len(attributes))` loop of the text
extractor (run_idp_on_text.py lines 88-93): each attribute appends
`"{i+1}. {name}: {description}"`, then `" (must be {type})."` when a
`type` entry exists whose lowercase value is not `"auto"`, then a
newline. -/
def attributes_str (attrs : List AttributeSpec) : String :=
  attrs.enum.foldl
    (fun acc p =>
      let a := p.2
      let acc := acc ++ toString (p.1 + 1) ++ ". " ++ a.name ++ ": " ++
        a.description
      let acc :=
        match a.type? with
        | some t => if strToLower t ≠ "auto" then
            acc ++ " (must be " ++ strToLower t ++ ")." else acc
        | none => acc
      acc ++ "\n") ""

/-- The numbered-list line for one attribute, as the claim states it. -/
def attributeLine (i : Nat) (a : AttributeSpec) : String :=
  toString (i + 1) ++ ". " ++ a.name ++ ": " ++ a.description ++
    (match a.type? with
     | some t => if strToLower t ≠ "auto" then
         " (must be " ++ strToLower t ++ ")."
                 else ""
     | none => "") ++ "\n"

/-- The manual substitution loop of the text extractor
(run_idp_on_text.py lines 139-140): for each variable in order,
`prompt_template.replace("{var}", value)` (every occurrence). -/
def replaceVars (template : String) (vars : List (String × String)) : String :=
  vars.foldl (fun t kv => strReplace t ("\x7b" ++ kv.1 ++ "\x7d") kv.2) template

/-- The `prompt_variables` dict of the text extractor (run_idp_on_text.py
lines 123-128) in insertion order: `document`, then the rendered
`attributes` string, then `instructions` when non-blank.  Few-shot
variables are appended after these and do not interact with the
attributes rendering; they are not modelled. -/
def text_prompt_variables (document : String) (attrs : List AttributeSpec)
    (instructions : String) : List (String × String) :=
  [("document", document), ("attributes", attributes_str attrs)] ++
    (if strTrim instructions ≠ "" then [("instructions", instructions)] else [])

/-- The final user-message text of the text extractor (run_idp_on_text.py
line 141): the template after the manual replacement loop. -/
def text_final_prompt (template document : String)
    (attrs : List AttributeSpec) (instructions : String) : String :=
  replaceVars template (text_prompt_variables document attrs instructions)

/-- Python `str.format` field substitution as the image prompter uses it
(`template.format(attributes=..., instructions=..., document=...)`):
`{{`/`}}` are escapes, `{name}` is replaced by the keyword's value, an
unknown field name or an unmatched brace is an error (`KeyError` /
`ValueError`).  Format specs (`{name:...}`) are not modelled; the
templates use plain fields only.  The first argument is `none` outside
a replacement field and `some field` (reversed accumulated name) inside
one. -/
def pyFormatS (vars : List (String × String)) :
    Option (List Char) → List Char → Option (List Char)
  | none, [] => some []
  | none, '{' :: '{' :: rest => (pyFormatS vars none rest).map ('{' :: ·)
  | none, '}' :: '}' :: rest => (pyFormatS vars none rest).map ('}' :: ·)
  | none, '{' :: rest => pyFormatS vars (some []) rest
  | none, '}' :: _ => none
  | none, c :: rest => (pyFormatS vars none rest).map (c :: ·)
  | some _, [] => none
  | some field, '}' :: rest =>
      match vars.lookup (String.mk field.reverse) with
      | some v => (pyFormatS vars none rest).map (v.data ++ ·)
      | none => none
  | some field, c :: rest => pyFormatS vars (some (c :: field)) rest

def pyFormat (template : String) (vars : List (String × String)) :
    Option String :=
  (pyFormatS vars none template.data).map String.mk

/-- Python `repr` of a string without quotes or control characters in
it: single-quoted.  (Attribute names and descriptions are plain words in
every input of interest.) -/
def pyReprStr (s : String) : String := "'" ++ s ++ "'"

/-- Python `str()` of the raw attributes value of the request body — a
list of insertion-ordered dicts with string values — as `str.format`
renders it when handed the list itself. -/
def pyReprAttrs (attrs : List (List (String × String))) : String :=
  "[" ++ strIntercalate ", "
    (attrs.map (fun d =>
      "\x7b" ++ strIntercalate ", "
        (d.map (fun kv => pyReprStr kv.1 ++ ": " ++ pyReprStr kv.2)) ++ "\x7d"))
    ++ "]"

/-- The filled template of the image extractor (run_idp_on_image.py
lines 349-353 with prompter.py line 151): `fill_prompt_template` passes
the *raw* `body["attributes"]` list to `template.format`, which renders
it with `str()` — the image path never builds the numbered
`attributes_str`.  This filled template is the text block of every
chunk message. -/
def image_filled_template (template : String)
    (attributes : List (List (String × String))) (instructions : String) :
    Option String :=
  pyFormat template
    [("attributes", pyReprAttrs attributes), ("instructions", instructions),
     ("document", "")]

/-! ### `truncate_document`
(src/lambda/run_idp_on_text/utils.py, lines 69-121) -/

/-- Python `int()` on a float/rational: truncation toward zero. -/
def pyInt (q : ℚ) : Int := if 0 ≤ q then ⌊q⌋ else -⌊-q⌋

/-- Python `lst[:n]`: a negative bound counts from the end, clamped at
zero. -/
def pySliceTo {α : Type} (n : Int) (l : List α) : List α :=
  if 0 ≤ n then l.take n.toNat
  else l.take (((l.length : Int) + n).toNat)

/-- Python `lst[n:]`. -/
def pySliceFrom {α : Type} (n : Int) (l : List α) : List α :=
  if 0 ≤ n then l.drop n.toNat
  else l.drop (((l.length : Int) + n).toNat)

/-- The multipliers built by the `while start < end` loop (utils.py
lines 102-106): 1.0, 1.1, …, 4.9 — forty values.  The Python loop
accumulates binary floats (producing values within 2⁻⁴⁰ of these
rationals and stopping after the same forty steps); the exact rationals
stand in for them, and every property proved below holds for any
multiplier values. -/
def multipliers : List ℚ :=
  (List.range 40).map (fun (k : Nat) => 1 + (k : ℚ) / 10)

/-- One candidate truncation (utils.py lines 112-116): keep the words
before `mid_point - int(split_parameter * multiplier)` and after
`mid_point + int(split_parameter * multiplier)`, joined by the literal
marker `"\n...\n"`. -/
def truncatedDocAt (doc_words : List String) (split_parameter : Int)
    (mid_point : Nat) (m : ℚ) : String :=
  let cut := pyInt ((split_parameter : ℚ) * m)
  strIntercalate " " (pySliceTo ((mid_point : Int) - cut) doc_words)
    ++ "\n...\n"
    ++ strIntercalate " " (pySliceFrom ((mid_point : Int) + cut) doc_words)

/-- The `for multiplier in multipliers` loop: compute the candidate,
`break` as soon as its token count is under budget, and — loop exhausted
or not — return the last candidate computed. -/
def truncLoop (mk : ℚ → String) (ok : String → Bool) : List ℚ → String
  | [] => ""
  | [m] => mk m
  | m :: ms => if ok (mk m) then mk m else truncLoop mk ok ms

/-- The value `split_parameter` (utils.py line 97): half the token overshoot, or
zero when the budget is not exceeded.  `max_token_model` is rational
because the caller (run_idp_on_text.py line 119) passes
`get_max_input_token(model_id) * 0.75`, a Python float; `// 2` on it is
`Int.floor` of the halved difference. -/
def splitParam (token_count_total : Int) (max_token_model : ℚ) : Int :=
  if max_token_model < (token_count_total : ℚ) then
    ⌊((token_count_total : ℚ) - max_token_model) / 2⌋
  else 0

/-- The function `truncate_document` (utils.py lines 69-121): `count` is the
`token_count_tokenizer` oracle (the griptape tokenizer for the fixed
model).  When the budget is not exceeded, `split_parameter` is zero and
every candidate is the document with the marker spliced at the mid
word — the marker is inserted unconditionally. -/
def truncate_document (count : String → Int) (document : String)
    (token_count_total : Int) (num_token_prompt : Int)
    (max_token_model : ℚ) : String :=
  let doc_words := strSplitOn document " "
  let mid_point := doc_words.length / 2
  truncLoop
    (truncatedDocAt doc_words (splitParam token_count_total max_token_model)
      mid_point)
    (fun d => decide ((count d : ℚ) < max_token_model - (num_token_prompt : ℚ)))
    multipliers

/-! ## Claims -/

/-- C1.  For every list of per-chunk parsed results,
`combine_json_responses` folds left over the dict-valued results —
chunk results that are not dicts contribute nothing — and each item step
acts per key k: it assigns when k is absent in the accumulator,
concatenates two lists, promotes two non-lists to the 2-element list
`[acc, new]`, appends a non-list new value to an accumulated list, and
prepends an accumulated non-list onto a new list (`mergeRule` restates
exactly these five spec rules), leaving every other key unchanged. -/
theorem C1_combine_merge_rules :
    (∀ (rs : List PyVal) (kvs : List (PyKey × PyVal)),
       combine_json_responses (rs ++ [PyVal.dict kvs]) =
         kvs.foldl combineStep (combine_json_responses rs)) ∧
    (∀ (rs : List PyVal) (r : PyVal), r.isDict = false →
       combine_json_responses (rs ++ [r]) = combine_json_responses rs) ∧
    (∀ (acc : List (PyKey × PyVal)) (k : PyKey) (v : PyVal),
       lookupKey (combineStep acc (k, v)) k =
         some (mergeRule (lookupKey acc k) v)) ∧
    (∀ (acc : List (PyKey × PyVal)) (k k' : PyKey) (v : PyVal), k' ≠ k →
       lookupKey (combineStep acc (k, v)) k' = lookupKey acc k') := by
  refine ⟨?_, ?_, combineStep_lookup_self, combineStep_lookup_other⟩
  · intro rs kvs
    simp [combine_json_responses, List.foldl_append]
  · intro rs r hr
    cases r <;> simp_all [combine_json_responses, List.foldl_append,
      PyVal.isDict]

/-- Witness for C1 at concrete inputs: a non-dict chunk result is
skipped, a fresh key is assigned, an untouched key is preserved. -/
theorem C1_witness :
    combine_json_responses
        ([PyVal.dict [(PyKey.str "a", PyVal.int 1)]] ++ [PyVal.str "junk"]) =
      combine_json_responses [PyVal.dict [(PyKey.str "a", PyVal.int 1)]] ∧
    lookupKey (combineStep [] (PyKey.str "a", PyVal.int 2)) (PyKey.str "a") =
      some (mergeRule (lookupKey [] (PyKey.str "a")) (PyVal.int 2)) ∧
    lookupKey (combineStep [] (PyKey.str "a", PyVal.int 2)) (PyKey.str "b") =
      lookupKey [] (PyKey.str "b") :=
  ⟨C1_combine_merge_rules.2.1 _ _ rfl,
   C1_combine_merge_rules.2.2.1 _ _ _,
   C1_combine_merge_rules.2.2.2 _ _ _ _ (by decide)⟩

/-- C5, counterexample.  The claim asserts that
`parse_json_string "k: 1\n\nk2: 2"` returns the object `{"k": 1,
"k2": 2}`.  It does not: the transformation does produce the text
`{k: 1,k2: 2}`, but `ast.literal_eval` rejects the bare (unquoted) names
`k` and `k2` — names are not literals — and the function raises
`ValueError` instead of returning an object. -/
theorem C5_counterexample :
    parse_json_string "k: 1\n\nk2: 2" =
        Except.error "malformed node or string" ∧
      parse_json_string "k: 1\n\nk2: 2" ≠
        Except.ok (PyVal.dict
          [(PyKey.str "k", PyVal.int 1), (PyKey.str "k2", PyVal.int 2)]) := by
  constructor
  · rfl
  · intro h
    rw [show parse_json_string "k: 1\n\nk2: 2" =
          Except.error "malformed node or string" from rfl] at h
    exact Except.noConfusion h

/-- C5, amended.  `parse_json_string` applied to
`"<thinking>…</thinking><json>{\"k\":1}</json>"` returns `{"k": 1}`;
applied to `"k: 1\n\nk2: 2"` it collapses the blank line to a comma and
wraps the text in braces, but the permissive literal evaluator rejects
the unquoted keys and the call fails; with quoted keys
(`"'k': 1\n\n'k2': 2"`) it returns `{"k": 1, "k2": 2}`; single quotes
and trailing commas are accepted. -/
theorem C5_amended :
    parse_json_string "<thinking>...</thinking><json>\x7b\"k\":1\x7d</json>" =
        Except.ok (PyVal.dict [(PyKey.str "k", PyVal.int 1)]) ∧
      parse_json_string "'k': 1\n\n'k2': 2" =
        Except.ok (PyVal.dict
          [(PyKey.str "k", PyVal.int 1), (PyKey.str "k2", PyVal.int 2)]) ∧
      parse_json_string "k: 1\n\nk2: 2" =
        Except.error "malformed node or string" ∧
      parse_json_string "\x7b'a': 1, 'b': ['x', 'y'],\x7d" =
        Except.ok (PyVal.dict
          [(PyKey.str "a", PyVal.int 1),
           (PyKey.str "b", PyVal.list [PyVal.str "x", PyVal.str "y"])]) :=
  ⟨rfl, rfl, rfl, rfl⟩

/-- C10.  `parse_bedrock_response` raises its multiple-text-blocks
error for every response whose content list has two or more blocks and
whose count of text-bearing blocks after filtering differs from exactly
one — including zero remaining text blocks — whereas a response with a
single content block has its text returned stripped, with no filtering
or count check applied. -/
theorem C10_parse_bedrock_response_spec :
    (∀ blocks : List ContentBlock, 2 ≤ blocks.length →
       (blocks.filter (fun b => b.isSome)).length ≠ 1 →
       parse_bedrock_response blocks =
         Except.error
           (PBErr.multipleTextBlocks
             ((blocks.filter (fun b => b.isSome)).length))) ∧
    (∀ t : String, parse_bedrock_response [some t] = Except.ok (strTrim t)) := by
  constructor
  · intro blocks h2 hne
    have h1 : 1 < blocks.length := lt_of_lt_of_le one_lt_two h2
    simp [parse_bedrock_response, h1, hne]
  · intro t
    rfl

/-- Witness for C10: two blocks with zero text-bearing blocks raise the
count error; a single text block is returned stripped. -/
theorem C10_witness :
    parse_bedrock_response [none, none] =
        Except.error (PBErr.multipleTextBlocks 0) ∧
      parse_bedrock_response [some " hi "] = Except.ok (strTrim " hi ") :=
  ⟨C10_parse_bedrock_response_spec.1 [none, none] (by decide) (by decide),
   C10_parse_bedrock_response_spec.2 " hi "⟩

lemma buildWithImages_ne_unbound (bs : List Bytes) (fmt text : String)
    (mp : Nat) (s : String) :
    buildWithImages bs fmt text mp ≠ Except.error (PyExn.unboundLocal s) := by
  unfold buildWithImages
  by_cases h : bs.take mp = [] <;> simp [h]

/-- C8.  `create_human_message_with_imgs` (the few-shot priming path
of the image extractor) is total only under the precondition that the
file argument is absent (or falsy) or its lowercased name ends in .pdf,
.jpeg, .jpg or .png: for any other non-empty file argument it fails with
the unbound-variable error (`UnboundLocalError` on `bytes_strs`) rather
than the descriptive unsupported-format error, because neither the
image-bytes list nor the format variable is ever assigned on that path;
on the supported paths the unbound-variable error never occurs. -/
theorem C8_few_shot_message_totality :
    (∀ (pdfImages : String → List Bytes) (readFile : String → Bytes)
       (text f : String) (mp : Nat), f ≠ "" → supportedImageExt f = false →
       create_human_message_with_imgs pdfImages readFile text (some f) mp =
         Except.error (PyExn.unboundLocal "bytes_strs")) ∧
    (∀ (pdfImages : String → List Bytes) (readFile : String → Bytes)
       (text : String) (file : Option String) (mp : Nat) (s : String),
       (∀ f, file = some f → f ≠ "" → supportedImageExt f = true) →
       create_human_message_with_imgs pdfImages readFile text file mp ≠
         Except.error (PyExn.unboundLocal s)) := by
  constructor
  · intro pdfImages readFile text f mp hne hunsup
    simp only [supportedImageExt, Bool.or_eq_false_iff] at hunsup
    obtain ⟨⟨⟨hpdf, hjpeg⟩, hjpg⟩, hpng⟩ := hunsup
    simp [create_human_message_with_imgs, hne, hpdf, hjpeg, hjpg, hpng]
  · intro pdfImages readFile text file mp s hsup
    cases file with
    | none => simp [create_human_message_with_imgs]
    | some f =>
        by_cases hf : f = ""
        · simp [create_human_message_with_imgs, hf]
        · have hs := hsup f rfl hf
          simp only [supportedImageExt, Bool.or_eq_true] at hs
          by_cases hpdf : strEndsWith (strToLower f) ".pdf" = true
          · simp [create_human_message_with_imgs, hf, hpdf,
              buildWithImages_ne_unbound]
          · have hrest : (strEndsWith (strToLower f) ".jpeg" ||
                strEndsWith (strToLower f) ".jpg" ||
                strEndsWith (strToLower f) ".png") = true := by
              rcases hs with ((h | h) | h) | h
              · exact absurd h hpdf
              · simp [h]
              · simp [h]
              · simp [h]
            simp [create_human_message_with_imgs, hf, hpdf, hrest,
              buildWithImages_ne_unbound]

/-- Witness for C8: a `.docx` file name hits the unbound-variable error;
a `.PNG` file name (supported after lowercasing) never does. -/
theorem C8_witness :
    create_human_message_with_imgs (fun _ => []) (fun _ => [0]) "prompt"
        (some "doc.docx") 20 =
      Except.error (PyExn.unboundLocal "bytes_strs") ∧
    create_human_message_with_imgs (fun _ => []) (fun _ => [0]) "prompt"
        (some "img.PNG") 20 ≠
      Except.error (PyExn.unboundLocal "bytes_strs") :=
  ⟨C8_few_shot_message_totality.1 _ _ _ _ _ (by decide) (by decide),
   C8_few_shot_message_totality.2 _ _ _ _ _ _
     (fun f hf _ => by injection hf with h; subst h; decide)⟩

lemma genConvRetries_trace (att : Nat → Except BRFail BRResp)
    (jit : Nat → ℚ) :
    ∀ rcs : List Nat, ∃ m, (genConvRetries att jit rcs).1 =
      (rcs.take m).map (fun rc => (2 ^ rc : ℚ) * jit rc) := by
  intro rcs
  induction rcs with
  | nil => exact ⟨0, rfl⟩
  | cons rc rest ih =>
      cases hatt : att rc with
      | ok r => exact ⟨1, by simp [genConvRetries, hatt]⟩
      | error e =>
          cases e with
          | throttling =>
              obtain ⟨m, hm⟩ := ih
              refine ⟨m + 1, ?_⟩
              simp only [genConvRetries, hatt]
              simp [hm]
          | otherClient => exact ⟨1, by simp [genConvRetries, hatt]⟩
          | nonClient => exact ⟨1, by simp [genConvRetries, hatt]⟩

lemma gc_trace_form (att : Nat → Except BRFail BRResp) (jit : Nat → ℚ) :
    ∃ m, m ≤ 5 ∧ (generate_conversation att jit).1 =
      (([1, 2, 3, 4, 5].take m).map (fun rc => (2 ^ rc : ℚ) * jit rc)) := by
  cases hatt : att 0 with
  | ok r => exact ⟨0, by norm_num, by simp [generate_conversation, hatt]⟩
  | error e =>
      cases e with
      | throttling =>
          obtain ⟨m, hm⟩ := genConvRetries_trace att jit [1, 2, 3, 4, 5]
          have hmin : ([1, 2, 3, 4, 5] : List Nat).take m =
              [1, 2, 3, 4, 5].take (min m 5) := by
            rw [List.take_eq_take]
            simp
          exact ⟨min m 5, by omega,
            by simp only [generate_conversation, hatt]; rw [hm, hmin]⟩
      | otherClient =>
          exact ⟨0, by norm_num, by simp [generate_conversation, hatt]⟩
      | nonClient =>
          exact ⟨0, by norm_num, by simp [generate_conversation, hatt]⟩

lemma delay_mono (jit : Nat → ℚ)
    (hb : ∀ k, (4 : ℚ)/5 ≤ jit k ∧ jit k ≤ 6/5) (k : Nat) :
    (2 ^ k : ℚ) * jit k < 2 ^ (k + 1) * jit (k + 1) := by
  have h1 : (2 ^ k : ℚ) * jit k ≤ 2 ^ k * (6/5) :=
    mul_le_mul_of_nonneg_left (hb k).2 (by positivity)
  have h2 : (2 ^ (k + 1) : ℚ) * (4/5) ≤ 2 ^ (k + 1) * jit (k + 1) :=
    mul_le_mul_of_nonneg_left (hb (k + 1)).1 (by positivity)
  have h3 : (2 ^ k : ℚ) * (6/5) < 2 ^ (k + 1) * (4/5) := by
    rw [pow_succ]
    have hp : (0 : ℚ) < 2 ^ k := by positivity
    nlinarith
  linarith

/-- C6, counterexample.  The claim asserts that any non-throttling
error is surfaced to the caller immediately, neither retried nor
swallowed.  A non-throttling `ClientError` (e.g. a validation failure)
on the very first converse attempt *is* swallowed by `call_bedrock`'s
`except ClientError` handler (bedrock.py lines 234-238), which returns
`("", [])` — a successful return with empty text — instead of an
error. -/
theorem C6_counterexample :
    (call_bedrock (fun _ => Except.error BRFail.otherClient)
        (fun _ => 1)).2 = Except.ok "" := rfl

/-- C6, amended.  On a throttling error the client retries at most
five times, sleeping `2^k · jitter` seconds before retry `k` (the trace
entry at position k is `2^(k+1) · jit (k+1)`), with delays strictly
increasing whenever the jitter stays in [0.8, 1.2]; when every attempt
up to the budget is throttled, the permanent error is raised (and
propagates through `call_bedrock`, which does not catch plain
exceptions); a non-throttling error on the first attempt is re-raised
immediately by `generate_conversation` with no sleep and no retry — but
`call_bedrock` then *swallows* it when it is a `ClientError`, returning
`("", [])`, and only non-`ClientError` failures reach its caller. -/
theorem C6_retry_policy_amended :
    (∀ (att : Nat → Except BRFail BRResp) (jit : Nat → ℚ),
       (generate_conversation att jit).1.length ≤ 5) ∧
    (∀ (att : Nat → Except BRFail BRResp) (jit : Nat → ℚ) (k : Nat) (d : ℚ),
       (generate_conversation att jit).1.get? k = some d →
       d = 2 ^ (k + 1) * jit (k + 1)) ∧
    (∀ (att : Nat → Except BRFail BRResp) (jit : Nat → ℚ),
       (∀ k, k ≤ 5 → att k = .error .throttling) →
       generate_conversation att jit =
         ((List.range' 1 5).map (fun rc => (2 ^ rc : ℚ) * jit rc),
          .error .permanentThrottle)) ∧
    (∀ (att : Nat → Except BRFail BRResp) (jit : Nat → ℚ) (e : BRFail),
       e ≠ .throttling → att 0 = .error e →
       generate_conversation att jit = ([], .error (.raised e))) ∧
    (∀ (att : Nat → Except BRFail BRResp) (jit : Nat → ℚ),
       att 0 = .error .otherClient → (call_bedrock att jit).2 = .ok "") ∧
    (∀ (att : Nat → Except BRFail BRResp) (jit : Nat → ℚ),
       att 0 = .error .nonClient →
       (call_bedrock att jit).2 = .error (.raised .nonClient)) ∧
    (∀ (att : Nat → Except BRFail BRResp) (jit : Nat → ℚ),
       (∀ k, k ≤ 5 → att k = .error .throttling) →
       (call_bedrock att jit).2 = .error .permanentThrottle) ∧
    (∀ (att : Nat → Except BRFail BRResp) (jit : Nat → ℚ),
       (∀ k, (4 : ℚ)/5 ≤ jit k ∧ jit k ≤ 6/5) →
       List.Chain' (· < ·) (generate_conversation att jit).1) := by
  have hthr : ∀ (att : Nat → Except BRFail BRResp) (jit : Nat → ℚ),
      (∀ k, k ≤ 5 → att k = .error .throttling) →
      generate_conversation att jit =
        ((List.range' 1 5).map (fun rc => (2 ^ rc : ℚ) * jit rc),
         .error .permanentThrottle) := by
    intro att jit h
    have h0 := h 0 (by norm_num)
    have h1 := h 1 (by norm_num)
    have h2 := h 2 (by norm_num)
    have h3 := h 3 (by norm_num)
    have h4 := h 4 (by norm_num)
    have h5 := h 5 (by norm_num)
    simp [generate_conversation, genConvRetries, h0, h1, h2, h3, h4, h5,
      List.range']
  have himm : ∀ (att : Nat → Except BRFail BRResp) (jit : Nat → ℚ)
      (e : BRFail), e ≠ .throttling → att 0 = .error e →
      generate_conversation att jit = ([], .error (.raised e)) := by
    intro att jit e he hatt
    cases e with
    | throttling => exact absurd rfl he
    | otherClient => simp [generate_conversation, hatt]
    | nonClient => simp [generate_conversation, hatt]
  refine ⟨?_, ?_, hthr, himm, ?_, ?_, ?_, ?_⟩
  · intro att jit
    obtain ⟨m, hm, he⟩ := gc_trace_form att jit
    rw [he]
    simp only [List.length_map, List.length_take]
    omega
  · intro att jit k d hget
    obtain ⟨m, hm, he⟩ := gc_trace_form att jit
    rw [he] at hget
    rw [List.get?_map] at hget
    cases htk : (([1, 2, 3, 4, 5] : List Nat).take m).get? k with
    | none => rw [htk] at hget; exact Option.noConfusion hget
    | some rc =>
        rw [htk] at hget
        have hk : k < m := by
          have := List.get?_eq_some.mp htk
          obtain ⟨hlt, _⟩ := this
          simp only [List.length_take] at hlt
          omega
        have hk5 : k < 5 := by
          have := List.get?_eq_some.mp htk
          obtain ⟨hlt, _⟩ := this
          simp only [List.length_take] at hlt
          omega
        have hrc : (([1, 2, 3, 4, 5] : List Nat).take m).get? k =
            ([1, 2, 3, 4, 5] : List Nat).get? k := List.get?_take hk
        have hv : (([1, 2, 3, 4, 5] : List Nat)).get? k = some (k + 1) := by
          interval_cases k <;> rfl
        rw [hrc, hv] at htk
        injection htk with htk1
        rw [← htk1] at hget
        simp only [Option.map_some', Option.some.injEq] at hget
        exact hget.symm
  · intro att jit hatt
    have := himm att jit .otherClient (by simp) hatt
    simp [call_bedrock, this, isClientError]
  · intro att jit hatt
    have := himm att jit .nonClient (by simp) hatt
    simp [call_bedrock, this, isClientError]
  · intro att jit h
    have := hthr att jit h
    simp [call_bedrock, this, isClientError]
  · intro att jit hb
    obtain ⟨m, hm, he⟩ := gc_trace_form att jit
    rw [he]
    have step := delay_mono jit hb
    rcases m with _ | _ | _ | _ | _ | m
    · simp
    · simp
    · simpa [List.chain'_cons] using step 1
    · simp only [List.take, List.map, List.chain'_cons,
        List.chain'_singleton, and_true]
      exact ⟨step 1, step 2⟩
    · simp only [List.take, List.map, List.chain'_cons,
        List.chain'_singleton, and_true]
      exact ⟨step 1, step 2, step 3⟩
    · have : ([1, 2, 3, 4, 5] : List Nat).take (m + 5) = [1, 2, 3, 4, 5] := by
        apply List.take_of_length_le
        simp
      rw [this]
      simp only [List.map, List.chain'_cons, List.chain'_singleton, and_true]
      exact ⟨step 1, step 2, step 3, step 4⟩

/-- Witness for C6: with every attempt throttled and unit jitter the
trace is the five increasing delays 2,4,8,16,32 and the permanent error
is raised; a non-client failure on attempt 0 propagates; the jitter
bound yields a strictly increasing trace. -/
theorem C6_witness :
    generate_conversation (fun _ => Except.error BRFail.throttling)
        (fun _ => 1) =
      ([2, 4, 8, 16, 32], .error .permanentThrottle) ∧
    (call_bedrock (fun _ => Except.error BRFail.nonClient) (fun _ => 1)).2 =
      Except.error (.raised .nonClient) ∧
    List.Chain' (· < ·)
      (generate_conversation (fun _ => Except.error BRFail.throttling)
        (fun _ => 1)).1 := by
  refine ⟨?_, ?_, ?_⟩
  · have h := C6_retry_policy_amended.2.2.1
      (fun _ => Except.error BRFail.throttling) (fun _ => 1)
      (fun _ _ => rfl)
    rw [h]
    norm_num [List.range']
  · exact C6_retry_policy_amended.2.2.2.2.2.1
      (fun _ => Except.error BRFail.nonClient) (fun _ => 1) rfl
  · exact C6_retry_policy_amended.2.2.2.2.2.2.2
      (fun _ => Except.error BRFail.throttling) (fun _ => 1)
      (fun _ => by norm_num)

lemma process_chunks_seq_all_ok (call : Nat → Except String String) :
    ∀ l : List Nat, (∀ i ∈ l, ∃ t, call i = .ok t) →
    process_chunks_seq call l = .ok ((l.map (collectChunk call)).unzip) := by
  intro l
  induction l with
  | nil => intro _; rfl
  | cons i is ih =>
      intro h
      obtain ⟨t, ht⟩ := h i (List.mem_cons_self i is)
      have hrest := ih (fun j hj => h j (List.mem_cons_of_mem _ hj))
      simp [process_chunks_seq, process_chunk, ht, hrest, collectChunk]

/-- C2.  For every family of per-chunk call outcomes in which every
chunk's LLM call succeeds, processing with `parallel_processing = true`
(and more than one chunk) yields exactly the same `Except`-value — the
same ordered list of parsed responses and the same ordered list of raw
responses — as sequential processing, and hence the same merged
document answer.  (Each future's `result()` is the deterministic outcome
of its own chunk and the collection loop reads the futures list by
submission index, so completion order cannot influence the lists.) -/
theorem C2_parallel_refines_sequential :
    ∀ (call : Nat → Except String String) (n : Nat), 1 < n →
    (∀ i, i < n → ∃ t, call i = .ok t) →
    process_chunks call n true = process_chunks call n false ∧
    (∀ vs ts vs' ts', process_chunks call n true = .ok (vs, ts) →
      process_chunks call n false = .ok (vs', ts') →
      combine_json_responses vs = combine_json_responses vs') := by
  intro call n hn hok
  have hseq : process_chunks call n false =
      .ok (((List.range n).map (collectChunk call)).unzip) := by
    simp only [process_chunks, false_and, if_false]
    exact process_chunks_seq_all_ok call (List.range n)
      (fun i hi => hok i (List.mem_range.mp hi))
  have hpar : process_chunks call n true =
      .ok (((List.range n).map (collectChunk call)).unzip) := by
    simp [process_chunks, hn]
  constructor
  · rw [hpar, hseq]
  · intro vs ts vs' ts' h1 h2
    rw [hpar] at h1
    rw [hseq] at h2
    injection h1 with h1'
    injection h2 with h2'
    have h3 := h1'.symm.trans h2'
    injection h3 with hv ht
    rw [hv]

/-- Witness for C2 at two always-succeeding chunks. -/
theorem C2_witness :
    process_chunks (fun _ => Except.ok "") 2 true =
      process_chunks (fun _ => Except.ok "") 2 false :=
  (C2_parallel_refines_sequential (fun _ => Except.ok "") 2 (by norm_num)
    (fun _ _ => ⟨"", rfl⟩)).1

/-- C3, counterexample.  The claim asserts chunk-failure isolation
for both the parallel and the sequential execution paths.  The
sequential branch of `process_chunks` (run_idp_on_image.py lines
232-249) has no `try/except`: with two chunks processed sequentially and
chunk 1 raising, the whole call raises — the failing chunk's slot never
receives `({}, "Error: ...")` and the document errors. -/
theorem C3_counterexample :
    process_chunks (fun i => if i = 1 then Except.error "boom"
      else Except.ok "") 2 false = Except.error "boom" := rfl

lemma process_chunks_seq_error (call : Nat → Except String String)
    (i : Nat) (e : String) (he : call i = .error e) :
    ∀ l1 l2 : List Nat, (∀ j ∈ l1, ∃ t, call j = .ok t) →
    process_chunks_seq call (l1 ++ i :: l2) = .error e := by
  intro l1
  induction l1 with
  | nil =>
      intro l2 _
      simp [process_chunks_seq, process_chunk, he]
  | cons j js ih =>
      intro l2 h
      obtain ⟨t, ht⟩ := h j (List.mem_cons_self j js)
      have hrest := ih l2 (fun j' hj' => h j' (List.mem_cons_of_mem _ hj'))
      simp [process_chunks_seq, process_chunk, ht, hrest]

/-- C3, amended.  On the *parallel* path (taken when
`parallel_processing` is true and there is more than one chunk), one
chunk's failure does not cancel siblings: the call never errors, the
result lists keep exactly one entry per chunk, and a failing chunk's
slot receives `({}, "Error: <message>")`, so the merged answer contains
only the successful chunks' contributions (a failed slot is the empty
dict, which contributes nothing to the merge).  On the *sequential*
path, however, the first failing chunk's exception propagates and the
document as a whole errors. -/
theorem C3_failure_isolation_amended :
    (∀ (call : Nat → Except String String) (n : Nat), 1 < n →
       ∃ vs ts, process_chunks call n true = .ok (vs, ts) ∧
         vs.length = n ∧ ts.length = n ∧
         (∀ i e, i < n → call i = .error e →
           vs.get? i = some (.dict []) ∧
           ts.get? i = some ("Error: " ++ e))) ∧
    (∀ (call : Nat → Except String String) (n i : Nat) (e : String),
       i < n → call i = .error e → (∀ j, j < i → ∃ t, call j = .ok t) →
       process_chunks call n false = .error e) := by
  constructor
  · intro call n hn
    have hpar : process_chunks call n true =
        .ok (((List.range n).map (collectChunk call)).unzip) := by
      simp [process_chunks, hn]
    refine ⟨((List.range n).map (collectChunk call)).unzip.1,
      ((List.range n).map (collectChunk call)).unzip.2, hpar, ?_, ?_, ?_⟩
    · simp
    · simp
    · intro i e hi he
      constructor
      · simp [List.unzip_fst, List.getElem?_map, List.getElem?_range hi,
          collectChunk, process_chunk, he]
      · simp [List.unzip_snd, List.getElem?_map, List.getElem?_range hi,
          collectChunk, process_chunk, he]
  · intro call n i e hi he hpre
    have hdecomp : List.range n = List.range i ++ i :: List.range' (i + 1)
        (n - i - 1) := by
      rw [List.range_eq_range', List.range_eq_range']
      rw [show n = n - i + i by omega]
      rw [← List.range'_append 0 i (n - i) 1]
      congr 1
      rw [show n - i = (n - i - 1) + 1 by omega, List.range'_succ]
      simp
    simp only [process_chunks, false_and, if_false]
    rw [hdecomp]
    exact process_chunks_seq_error call i e he (List.range i) _
      (fun j hj => hpre j (List.mem_range.mp hj))

/-- Witness for C3 at the spec's four-chunk scenario with chunk index 2
raising. -/
theorem C3_amended_witness :
    (∃ vs ts,
      process_chunks (fun i => if i = 2 then Except.error "boom"
        else Except.ok "") 4 true = .ok (vs, ts) ∧
      vs.length = 4 ∧ ts.length = 4 ∧
      (∀ i e, i < 4 →
        (if i = 2 then Except.error "boom" else Except.ok "") =
          Except.error e →
        vs.get? i = some (.dict []) ∧
        ts.get? i = some ("Error: " ++ e))) ∧
    process_chunks (fun i => if i = 2 then Except.error "boom"
      else Except.ok "") 4 false = Except.error "boom" :=
  ⟨C3_failure_isolation_amended.1 _ 4 (by norm_num),
   C3_failure_isolation_amended.2 _ 4 2 "boom" (by norm_num) rfl
     (fun j hj => ⟨"", by interval_cases j <;> rfl⟩)⟩

/-- C9.  `prepare_and_store_response` prefixes per-chunk raw texts
with `CHUNK i:` headers (joined by blank lines) and merges the parsed
answers only when more than one chunk response exists; with exactly one
chunk the stored `raw_answer` is that chunk's raw text verbatim and the
stored `answer` is that chunk's parsed object unmerged; with an empty
response list it still succeeds, storing answer `{}` and raw_answer `""`
with `chunks_processed = 0`; and the stored record never carries an
`error` field. -/
theorem C9_prepare_response_spec :
    (∀ (rs : List PyVal) (ts : List String) (fname : String),
       1 < rs.length →
       lookupKey (prepare_and_store_response rs ts fname)
           (.str "answer") = some (.dict (combine_json_responses rs)) ∧
       lookupKey (prepare_and_store_response rs ts fname)
           (.str "raw_answer") =
         some (.str (strIntercalate "\n\n"
           (ts.enum.map
             (fun p => "CHUNK " ++ toString (p.1 + 1) ++ ":\n" ++ p.2))))) ∧
    (∀ (r : PyVal) (t : String) (fname : String),
       prepare_and_store_response [r] [t] fname =
         [(.str "answer", r), (.str "raw_answer", .str t),
          (.str "file_key", .str fname),
          (.str "original_file_name", .str fname),
          (.str "chunks_processed", .int 1)]) ∧
    (∀ fname : String,
       prepare_and_store_response [] [] fname =
         [(.str "answer", .dict []), (.str "raw_answer", .str ""),
          (.str "file_key", .str fname),
          (.str "original_file_name", .str fname),
          (.str "chunks_processed", .int 0)]) ∧
    (∀ (rs : List PyVal) (ts : List String) (fname : String),
       lookupKey (prepare_and_store_response rs ts fname)
         (.str "error") = none) := by
  refine ⟨?_, ?_, ?_, ?_⟩
  · intro rs ts fname h
    constructor
    · simp [prepare_and_store_response, h, lookupKey]
    · simp [prepare_and_store_response, h, lookupKey]
  · intro r t fname
    rfl
  · intro fname
    rfl
  · intro rs ts fname
    simp [prepare_and_store_response, lookupKey]

/-- Witness for C9: with two chunk responses the answers merge and the
raw texts carry `CHUNK i:` headers. -/
theorem C9_witness :
    lookupKey
        (prepare_and_store_response
          [PyVal.dict [(PyKey.str "a", PyVal.int 1)],
           PyVal.dict [(PyKey.str "a", PyVal.int 2)]]
          ["x", "y"] "f.txt")
        (.str "answer") =
      some (.dict (combine_json_responses
        [PyVal.dict [(PyKey.str "a", PyVal.int 1)],
         PyVal.dict [(PyKey.str "a", PyVal.int 2)]])) ∧
    lookupKey
        (prepare_and_store_response
          [PyVal.dict [(PyKey.str "a", PyVal.int 1)],
           PyVal.dict [(PyKey.str "a", PyVal.int 2)]]
          ["x", "y"] "f.txt")
        (.str "raw_answer") =
      some (.str (strIntercalate "\n\n"
        ((["x", "y"] : List String).enum.map
          (fun p => "CHUNK " ++ toString (p.1 + 1) ++ ":\n" ++ p.2)))) :=
  C9_prepare_response_spec.1
    [PyVal.dict [(PyKey.str "a", PyVal.int 1)],
     PyVal.dict [(PyKey.str "a", PyVal.int 2)]]
    ["x", "y"] "f.txt" (by norm_num)

/-- C7, counterexample.  The claim asserts that the image extractor's
final user prompt renders the attribute specifications as a numbered
list.  It does not: `lambda_handler` passes the raw `body["attributes"]`
list to `template.format`, so the prompt receives Python's `str()`
rendering of the list of dicts — here
`[{'name': 'n', 'description': 'd'}]` — and not the numbered list
`1. n: d`. -/
theorem C7_counterexample :
    image_filled_template "Attributes:\n\x7battributes\x7d"
        [[("name", "n"), ("description", "d")]] "" =
      some ("Attributes:\n[\x7b'name': 'n', 'description': 'd'\x7d]") ∧
    image_filled_template "Attributes:\n\x7battributes\x7d"
        [[("name", "n"), ("description", "d")]] "" ≠
      some ("Attributes:\n" ++
        attributes_str [⟨"n", "d", none⟩]) :=
  ⟨rfl, by decide⟩

/-- C7, amended.  The *text* extractor renders the attribute
specifications as a numbered list with one line per attribute in input
order, of the form `<i>. <name>: <description>`, with the suffix
`" (must be <type>)."` appended exactly when the attribute carries a
type entry whose lowercase value differs from `"auto"`
(`attributeLine` restates the claim's line format); that rendering
reaches the text extractor's final user prompt through the `{attributes}`
substitution.  The *image* extractor's final user prompt instead embeds
Python's `str()` rendering of the raw attributes list. -/
theorem C7_attributes_rendering_amended :
    (∀ attrs : List AttributeSpec,
       attributes_str attrs =
         String.join (attrs.enum.map (fun p => attributeLine p.1 p.2))) ∧
    (text_final_prompt "A: \x7battributes\x7d" "doc" [⟨"n", "d", none⟩] "" =
       "A: " ++ attributeLine 0 ⟨"n", "d", none⟩) ∧
    (attributeLine 0 ⟨"n", "d", none⟩ = "1. n: d\n") ∧
    (attributeLine 1 ⟨"age", "person age", some "Number"⟩ =
       "2. age: person age (must be number).\n") ∧
    (attributeLine 2 ⟨"x", "y", some "AUTO"⟩ = "3. x: y\n") ∧
    (image_filled_template "A: \x7battributes\x7d"
       [[("name", "n"), ("description", "d")]] "" =
       some ("A: " ++ pyReprAttrs [[("name", "n"), ("description", "d")]])) := by
  refine ⟨?_, by decide, by decide, by decide, by decide, rfl⟩
  intro attrs
  have key : ∀ (l : List (Nat × AttributeSpec)) (acc : String),
      l.foldl
        (fun acc p =>
          let a := p.2
          let acc := acc ++ toString (p.1 + 1) ++ ". " ++ a.name ++ ": " ++
            a.description
          let acc :=
            match a.type? with
            | some t => if strToLower t ≠ "auto" then
                acc ++ " (must be " ++ strToLower t ++ ")." else acc
            | none => acc
          acc ++ "\n") acc =
      acc ++ String.join (l.map (fun p => attributeLine p.1 p.2)) := by
    intro l
    induction l with
    | nil => intro acc; simp [String.join]
    | cons p ps ih =>
        intro acc
        obtain ⟨i, a⟩ := p
        simp only [List.foldl_cons, List.map_cons]
        rw [ih]
        apply String.ext
        cases hty : a.type? with
        | none => simp [attributeLine, hty]
        | some t =>
            by_cases ht : strToLower t = "auto"
            · simp [attributeLine, hty, ht]
            · simp [attributeLine, hty, ht]
  exact key attrs.enum ""

lemma truncLoop_mem (mk : ℚ → String) (ok : String → Bool) :
    ∀ l : List ℚ, l ≠ [] → ∃ m ∈ l, truncLoop mk ok l = mk m := by
  intro l
  induction l with
  | nil => intro h; exact absurd rfl h
  | cons m ms ih =>
      intro _
      cases ms with
      | nil => exact ⟨m, by simp, by simp [truncLoop]⟩
      | cons m2 ms2 =>
          by_cases h : ok (mk m)
          · exact ⟨m, by simp, by simp [truncLoop, h]⟩
          · obtain ⟨m', hm', he⟩ := ih (by simp)
            exact ⟨m', List.mem_cons_of_mem _ hm', by simp [truncLoop, h, he]⟩

lemma truncLoop_ok_or (mk : ℚ → String) (ok : String → Bool) :
    ∀ l : List ℚ, l ≠ [] →
      ok (truncLoop mk ok l) = true ∨ ∀ m ∈ l, ok (mk m) = false := by
  intro l
  induction l with
  | nil => intro h; exact absurd rfl h
  | cons m ms ih =>
      intro _
      cases ms with
      | nil =>
          by_cases h : ok (mk m)
          · left; simpa [truncLoop] using h
          · right
            intro m' hm'
            rcases List.mem_singleton.mp hm' with rfl
            simpa using h
      | cons m2 ms2 =>
          by_cases h : ok (mk m)
          · left
            simp [truncLoop, h]
          · rcases ih (by simp) with h2 | h2
            · left; simpa [truncLoop, h] using h2
            · right
              intro m' hm'
              rcases List.mem_cons.mp hm' with rfl | hm''
              · simpa using h
              · exact h2 m' hm''

lemma multipliers_nonneg : ∀ m ∈ multipliers, (0 : ℚ) ≤ m := by
  intro m hm
  obtain ⟨k, _, hmk⟩ := List.mem_map.mp hm
  have hk : (0 : ℚ) ≤ (k : ℚ) / 10 :=
    div_nonneg (Nat.cast_nonneg k) (by norm_num)
  rw [← hmk]
  linarith

lemma splitParam_nonneg (total : Int) (B : ℚ) : 0 ≤ splitParam total B := by
  unfold splitParam
  split
  · next h =>
      refine Int.le_floor.mpr ?_
      push_cast
      linarith
  · exact le_refl 0

lemma splitParam_of_fits (total : Int) (B : ℚ) (h : (total : ℚ) ≤ B) :
    splitParam total B = 0 := by
  unfold splitParam
  rw [if_neg (by exact not_lt.mpr h)]

/-- The shape of every `truncate_document` result: the words before a
prefix bound `a`, the literal marker, and the words from a suffix bound
`b ≥ a` — never a cut of head or tail words; when the document fits the
budget both bounds equal the mid-word index (nothing is removed, but the
marker is still inserted); and the result satisfies the token budget
unless no multiplier's candidate does. -/
lemma truncate_document_shape (count : String → Int) (document : String)
    (total P : Int) (B : ℚ) :
    ∃ a b : Nat, a ≤ b ∧
      truncate_document count document total P B =
        strIntercalate " " ((strSplitOn document " ").take a) ++ "\n...\n" ++
        strIntercalate " " ((strSplitOn document " ").drop b) ∧
      ((total : ℚ) ≤ B →
        a = (strSplitOn document " ").length / 2 ∧
        b = (strSplitOn document " ").length / 2) ∧
      (((count (truncate_document count document total P B) : ℚ) <
          B - (P : ℚ)) ∨
        ∀ m ∈ multipliers,
          ¬ ((count (truncatedDocAt (strSplitOn document " ")
               (splitParam total B)
               ((strSplitOn document " ").length / 2) m) : ℚ) <
             B - (P : ℚ))) := by
  set ws := strSplitOn document " " with hws
  set sp := splitParam total B with hsp
  set mid := ws.length / 2 with hmid
  have hrun : truncate_document count document total P B =
      truncLoop (truncatedDocAt ws sp mid)
        (fun d => decide ((count d : ℚ) < B - (P : ℚ))) multipliers := rfl
  have hne : multipliers ≠ [] := by
    unfold multipliers
    intro h
    have hlen := congrArg List.length h
    simp at hlen
  obtain ⟨m, hmem, hm⟩ :=
    truncLoop_mem (truncatedDocAt ws sp mid)
      (fun d => decide ((count d : ℚ) < B - (P : ℚ))) multipliers hne
  have hmnn : (0 : ℚ) ≤ m := multipliers_nonneg m hmem
  have hspnn : (0 : Int) ≤ sp := hsp ▸ splitParam_nonneg total B
  have hprod : (0 : ℚ) ≤ (sp : ℚ) * m :=
    mul_nonneg (by exact_mod_cast hspnn) hmnn
  set cut := pyInt ((sp : ℚ) * m) with hcut
  have hcutnn : 0 ≤ cut := by
    rw [hcut, pyInt, if_pos hprod]
    exact Int.le_floor.mpr (by push_cast; exact hprod)
  have hres : truncate_document count document total P B =
      truncatedDocAt ws sp mid m := by rw [hrun, hm]
  have hcut0 : (total : ℚ) ≤ B → cut = 0 := by
    intro hfits
    have hsp0 : sp = 0 := hsp ▸ splitParam_of_fits total B hfits
    rw [hcut, hsp0]
    norm_num [pyInt]
  have hbudget :
      ((count (truncate_document count document total P B) : ℚ) <
        B - (P : ℚ)) ∨
      ∀ m' ∈ multipliers,
        ¬ ((count (truncatedDocAt ws sp mid m') : ℚ) < B - (P : ℚ)) := by
    rcases truncLoop_ok_or (truncatedDocAt ws sp mid)
        (fun d => decide ((count d : ℚ) < B - (P : ℚ))) multipliers hne with
      h | h
    · left
      rw [hrun]
      exact of_decide_eq_true h
    · right
      intro m' hm'
      exact of_decide_eq_false (h m' hm')
  have hunfold : truncatedDocAt ws sp mid m =
      strIntercalate " " (pySliceTo ((mid : Int) - cut) ws) ++ "\n...\n" ++
      strIntercalate " " (pySliceFrom ((mid : Int) + cut) ws) := by
    rw [truncatedDocAt, ← hcut]
  by_cases hsign : (0 : Int) ≤ (mid : Int) - cut
  · refine ⟨((mid : Int) - cut).toNat, ((mid : Int) + cut).toNat,
      by omega, ?_, ?_, hbudget⟩
    · rw [hres, hunfold]
      rw [pySliceTo, if_pos hsign, pySliceFrom,
        if_pos (by omega : (0 : Int) ≤ (mid : Int) + cut)]
    · intro hfits
      have h0 := hcut0 hfits
      constructor <;> omega
  · refine ⟨((ws.length : Int) + ((mid : Int) - cut)).toNat,
      ((mid : Int) + cut).toNat, by omega, ?_, ?_, hbudget⟩
    · rw [hres, hunfold]
      rw [pySliceTo, if_neg hsign, pySliceFrom,
        if_pos (by omega : (0 : Int) ≤ (mid : Int) + cut)]
    · intro hfits
      have h0 := hcut0 hfits
      omega

/-- C4, counterexample.  The claim asserts that a document already
within the budget is returned unchanged (idempotence).  It is not: with
the two-word document `"a b"`, a total count of 1 and a budget of 10
(so `split_parameter = 0` and nothing is cut), the function still
splices the literal `"\n...\n"` marker at the mid word and returns
`"a\n...\nb" ≠ "a b"`. -/
theorem C4_counterexample :
    truncate_document (fun _ => 0) "a b" 1 0 10 = "a\n...\nb" ∧
    truncate_document (fun _ => 0) "a b" 1 0 10 ≠ "a b" := by
  obtain ⟨a, b, hab, heq, hfits, _⟩ :=
    truncate_document_shape (fun _ => 0) "a b" 1 0 10
  obtain ⟨ha, hb⟩ := hfits (by norm_num)
  have hws : strSplitOn "a b" " " = ["a", "b"] := rfl
  have ha1 : a = 1 := by rw [ha, hws]; rfl
  have hb1 : b = 1 := by rw [hb, hws]; rfl
  rw [heq, hws, ha1, hb1]
  exact ⟨rfl, by decide⟩

/-- C4, amended.  For every count oracle, document, token totals and
budget, `truncate_document` returns the words before a prefix bound,
the literal `"\n...\n"` marker, and the words from a suffix bound at
least as large — the cut is taken only from a central span, never from
the head or the tail.  When the document already fits the budget the cut
is empty but the marker is *still inserted* at the mid-word index, so
the document is not returned unchanged and the operation is not
idempotent.  The multipliers grow from 1.0 toward 5.0 in 0.1 steps, and
the returned text satisfies `count(t) + P < B` whenever any candidate
cut does; if no multiplier achieves the budget the last candidate is
returned without the guarantee. -/
theorem C4_truncate_amended (count : String → Int) (document : String)
    (total P : Int) (B : ℚ) :
    ∃ a b : Nat, a ≤ b ∧
      truncate_document count document total P B =
        strIntercalate " " ((strSplitOn document " ").take a) ++ "\n...\n" ++
        strIntercalate " " ((strSplitOn document " ").drop b) ∧
      ((total : ℚ) ≤ B →
        a = (strSplitOn document " ").length / 2 ∧
        b = (strSplitOn document " ").length / 2) ∧
      (((count (truncate_document count document total P B) : ℚ) <
          B - (P : ℚ)) ∨
        ∀ m ∈ multipliers,
          ¬ ((count (truncatedDocAt (strSplitOn document " ")
               (splitParam total B)
               ((strSplitOn document " ").length / 2) m) : ℚ) <
             B - (P : ℚ))) :=
  truncate_document_shape count document total P B

/-- Witness for C4 at a concrete fitting document. -/
theorem C4_witness :
    ∃ a b : Nat, a ≤ b ∧
      truncate_document (fun _ => 0) "a b" 1 0 10 =
        strIntercalate " " ((strSplitOn "a b" " ").take a) ++ "\n...\n" ++
        strIntercalate " " ((strSplitOn "a b" " ").drop b) ∧
      (((1 : Int) : ℚ) ≤ 10 →
        a = (strSplitOn "a b" " ").length / 2 ∧
        b = (strSplitOn "a b" " ").length / 2) ∧
      (((((fun _ => (0 : Int)) (truncate_document (fun _ => 0) "a b" 1 0 10)) :
          ℚ) < 10 - ((0 : Int) : ℚ)) ∨
        ∀ m ∈ multipliers,
          ¬ ((((fun _ => (0 : Int))
               (truncatedDocAt (strSplitOn "a b" " ") (splitParam 1 10)
                 ((strSplitOn "a b" " ").length / 2) m)) : ℚ) <
             10 - ((0 : Int) : ℚ))) :=
  C4_truncate_amended (fun _ => 0) "a b" 1 0 10
